import Mathlib

/-!
Verification development for the ruxel geometric kernel: homogeneous
points/vectors, the generic 4x4 matrix algebra with Laplace determinant and
cofactor inverse, rays, sphere-ray intersection and the visible-hit selection
rule.  Every definition is a shallow embedding of the corresponding Rust item
(file and line references are given in the doc comments); scalars are modelled
by a linearly ordered field (the rationals where decidable evaluation is
wanted, the reals where sqrt/cos/sin are involved), and NaN-carrying f64
values by an option type whose comparisons are false whenever NaN is involved,
mirroring Rust PartialOrd on floats.
-/

set_option maxHeartbeats 1600000

namespace Ruxel

/-- Epsilon constant from src/geometry.rs line 14: EPSILON = 0.0001. -/
def EPSILON {P : Type} [LinearOrderedField P] : P := 1 / 10000

/-- Homogeneous vector (vector.rs, struct Vector3): components x, y, z and weight w. -/
structure Vector3 (P : Type) where
  x : P
  y : P
  z : P
  w : P
deriving DecidableEq

/-- Homogeneous point (vector.rs, struct Point3): components x, y, z and weight w. -/
structure Point3 (P : Type) where
  x : P
  y : P
  z : P
  w : P
deriving DecidableEq

/-- Dot product (vector.rs line 379, VecOps::dot): sums the products of the x, y
and z components; this is the public dot brought into scope in sphere.rs. -/
def Vector3.dot {P : Type} [LinearOrderedField P] (lhs rhs : Vector3 P) : P :=
  lhs.x * rhs.x + lhs.y * rhs.y + lhs.z * rhs.z

/-- Subtraction of points (vector.rs line 678, Sub for Point3): yields a Vector3
whose weight is written as the constant 0. -/
def Point3.sub {P : Type} [LinearOrderedField P] (a b : Point3 P) : Vector3 P :=
  { x := a.x - b.x, y := a.y - b.y, z := a.z - b.z, w := 0 }

/-- Origin point (vector.rs line 603, CoordInit::zero for Point3): (0,0,0) with weight 1. -/
def Point3.zero {P : Type} [LinearOrderedField P] : Point3 P :=
  { x := 0, y := 0, z := 0, w := 1 }

/-- Epsilon equality of vectors (vector.rs line 448, CoordInit::equal for
Vector3): the x, y and z components must differ by less than EPSILON. -/
def Vector3.equal {P : Type} [LinearOrderedField P] (a b : Vector3 P) : Prop :=
  |a.x - b.x| < EPSILON ∧ |a.y - b.y| < EPSILON ∧ |a.z - b.z| < EPSILON

/-- Epsilon equality of points (vector.rs line 546, CoordInit::equal for
Point3): all four components, the weight included, must differ by less than EPSILON. -/
def Point3.equal {P : Type} [LinearOrderedField P] (a b : Point3 P) : Prop :=
  |a.x - b.x| < EPSILON ∧ |a.y - b.y| < EPSILON ∧ |a.z - b.z| < EPSILON ∧ |a.w - b.w| < EPSILON

instance {P : Type} [LinearOrderedField P] (a b : Vector3 P) : Decidable (Vector3.equal a b) :=
  inferInstanceAs (Decidable (|a.x - b.x| < EPSILON ∧ |a.y - b.y| < EPSILON ∧
    |a.z - b.z| < EPSILON))

instance {P : Type} [LinearOrderedField P] (a b : Point3 P) : Decidable (Point3.equal a b) :=
  inferInstanceAs (Decidable (|a.x - b.x| < EPSILON ∧ |a.y - b.y| < EPSILON ∧
    |a.z - b.z| < EPSILON ∧ |a.w - b.w| < EPSILON))

/-- Intersection record (intersection.rs line 41, struct Intxn): a parameter t
and the intersected object. -/
structure Intxn (P S : Type) where
  t : P
  object : S
deriving DecidableEq

/-- Boolean comparison interface of the scalar type, modelling the Rust
PartialOrd tests used by hit: ge a b models a >= b and gt a b models a > b,
with both false whenever a NaN is involved (as for f64). -/
class RustOrd (P : Type) where
  zero : P
  ge : P → P → Bool
  gt : P → P → Bool

instance : RustOrd ℚ where
  zero := 0
  ge a b := decide (b ≤ a)
  gt a b := decide (b < a)

/-- Model of an f64 scalar as carried by an intersection: none is NaN, some q a
finite value; every comparison involving NaN is false, as for Rust f64. -/
abbrev FloatVal : Type := Option ℚ

instance : RustOrd FloatVal where
  zero := some 0
  ge a b :=
    match a, b with
    | some x, some y => decide (y ≤ x)
    | _, _ => false
  gt a b :=
    match a, b with
    | some x, some y => decide (y < x)
    | _, _ => false

/-- Loop state of hit (intersection.rs lines 79-81): the running minimum, the
index of the remembered entry and the flag recording whether any entry passed
the t >= 0 test. -/
structure HitState (P : Type) where
  min : P
  id : Nat
  flag : Bool

/-- Result of calling hit; the panicked constructor models the Rust
out-of-bounds panic raised by xs[0] on an empty vector. -/
inductive HitResult (P S : Type) where
  | panicked
  | ok (res : Option (Intxn P S))
deriving DecidableEq

/-- Loop body of hit (intersection.rs lines 82-90): when the entry passes the
t >= 0 test the minimum and index are updated if min > t, and the flag is set. -/
def hitStep {P S : Type} [RustOrd P] (st : HitState P) (e : Nat × Intxn P S) : HitState P :=
  if RustOrd.ge e.2.t RustOrd.zero then
    if RustOrd.gt st.min e.2.t then { min := e.2.t, id := e.1, flag := true }
    else { st with flag := true }
  else st

/-- Selection of the visible hit (intersection.rs lines 74-96): min is seeded
with xs[0].t before any emptiness check (panicking on an empty vector), the
indexed loop runs hitStep over every entry, and the function returns none when
no entry passed the t >= 0 test and xs[id] otherwise. -/
def hit {P S : Type} [RustOrd P] (xs : List (Intxn P S)) : HitResult P S :=
  match xs with
  | [] => HitResult.panicked
  | x0 :: _ =>
    let st := xs.enum.foldl hitStep { min := x0.t, id := 0, flag := false }
    if st.flag then HitResult.ok (some (xs.getD st.id x0)) else HitResult.ok none

/-- Generic 2x2 matrix (matrix.rs line 80, struct Matrix2), used only to
compute determinants. -/
structure Matrix2 (P : Type) where
  m : Fin 2 → Fin 2 → P

/-- Generic 3x3 matrix (matrix.rs line 71, struct Matrix3), used only to
compute 4x4 determinants and cofactors. -/
structure Matrix3 (P : Type) where
  m : Fin 3 → Fin 3 → P

/-- Generic 4x4 matrix, row-major, indexed m row col (matrix.rs line 62). -/
structure Matrix4 (P : Type) where
  m : Fin 4 → Fin 4 → P

/-- Row-listing constructor for 4x4 matrices, spelling out the 16 entries in
the order of a Rust array literal [[rows] cols]. -/
def M4 {P : Type} (a00 a01 a02 a03 a10 a11 a12 a13 a20 a21 a22 a23 a30 a31 a32 a33 : P) :
    Matrix4 P :=
  ⟨fun i j =>
    match i, j with
    | 0, 0 => a00
    | 0, 1 => a01
    | 0, 2 => a02
    | 0, 3 => a03
    | 1, 0 => a10
    | 1, 1 => a11
    | 1, 2 => a12
    | 1, 3 => a13
    | 2, 0 => a20
    | 2, 1 => a21
    | 2, 2 => a22
    | 2, 3 => a23
    | 3, 0 => a30
    | 3, 1 => a31
    | 3, 2 => a32
    | 3, 3 => a33⟩

/-- Index map of the submatrix loops (matrix.rs lines 183-194): the row counter
of the 3x3 result points at the rows 0..3 in order, skipping the deleted one. -/
def skipFin4 : Fin 4 → Fin 3 → Fin 4
  | 0, 0 => 1
  | 0, 1 => 2
  | 0, 2 => 3
  | 1, 0 => 0
  | 1, 1 => 2
  | 1, 2 => 3
  | 2, 0 => 0
  | 2, 1 => 1
  | 2, 2 => 3
  | 3, 0 => 0
  | 3, 1 => 1
  | 3, 2 => 2

/-- Index map of the 3x3 submatrix loops (matrix.rs lines 701-712). -/
def skipFin3 : Fin 3 → Fin 2 → Fin 3
  | 0, 0 => 1
  | 0, 1 => 2
  | 1, 0 => 0
  | 1, 1 => 2
  | 2, 0 => 0
  | 2, 1 => 1

/-- Determinant of a 2x2 matrix (matrix.rs line 681): m00*m11 - m01*m10. -/
def Matrix2.determinant {P : Type} [LinearOrderedField P] (self : Matrix2 P) : P :=
  self.m 0 0 * self.m 1 1 - self.m 0 1 * self.m 1 0

/-- Submatrix of a 3x3 matrix deleting one row and one column (matrix.rs line 696). -/
def Matrix3.submatrix {P : Type} (self : Matrix3 P) (row_del col_del : Fin 3) : Matrix2 P :=
  ⟨fun r c => self.m (skipFin3 row_del r) (skipFin3 col_del c)⟩

/-- Minor of a 3x3 matrix (matrix.rs line 716): determinant of the submatrix. -/
def Matrix3.minor {P : Type} [LinearOrderedField P] (self : Matrix3 P) (row_del col_del : Fin 3) :
    P :=
  (self.submatrix row_del col_del).determinant

/-- Cofactor of a 3x3 matrix (matrix.rs line 720): the minor, negated when
row + col is odd. -/
def Matrix3.cofactor {P : Type} [LinearOrderedField P] (self : Matrix3 P)
    (row_del col_del : Fin 3) : P :=
  if ((row_del : ℕ) + (col_del : ℕ)) % 2 = 0 then self.minor row_del col_del
  else -self.minor row_del col_del

/-- Determinant of a 3x3 matrix (matrix.rs line 728): cofactor expansion along row 0. -/
def Matrix3.determinant {P : Type} [LinearOrderedField P] (self : Matrix3 P) : P :=
  self.m 0 0 * self.cofactor 0 0 + self.m 0 1 * self.cofactor 0 1 + self.m 0 2 * self.cofactor 0 2

/-- Submatrix of a 4x4 matrix deleting one row and one column (matrix.rs line 178). -/
def Matrix4.submatrix {P : Type} (self : Matrix4 P) (row_del col_del : Fin 4) : Matrix3 P :=
  ⟨fun r c => self.m (skipFin4 row_del r) (skipFin4 col_del c)⟩

/-- Minor of a 4x4 matrix (matrix.rs line 174): determinant of the 3x3 submatrix. -/
def Matrix4.minor {P : Type} [LinearOrderedField P] (self : Matrix4 P) (row_del col_del : Fin 4) :
    P :=
  (self.submatrix row_del col_del).determinant

/-- Cofactor of a 4x4 matrix (matrix.rs line 158): the minor, negated when
row + col is odd. -/
def Matrix4.cofactor {P : Type} [LinearOrderedField P] (self : Matrix4 P)
    (row_del col_del : Fin 4) : P :=
  if ((row_del : ℕ) + (col_del : ℕ)) % 2 = 0 then self.minor row_del col_del
  else -self.minor row_del col_del

/-- Determinant of a 4x4 matrix (matrix.rs line 166): cofactor expansion along row 0. -/
def Matrix4.determinant {P : Type} [LinearOrderedField P] (self : Matrix4 P) : P :=
  self.m 0 0 * self.cofactor 0 0 + self.m 0 1 * self.cofactor 0 1 +
    self.m 0 2 * self.cofactor 0 2 + self.m 0 3 * self.cofactor 0 3

/-- Matrix product (matrix.rs line 477, Mul for Matrix4): row-column dot products. -/
def Matrix4.mul {P : Type} [LinearOrderedField P] (self rhs : Matrix4 P) : Matrix4 P :=
  ⟨fun row col =>
    self.m row 0 * rhs.m 0 col + self.m row 1 * rhs.m 1 col +
      self.m row 2 * rhs.m 2 col + self.m row 3 * rhs.m 3 col⟩

/-- Identity matrix (matrix.rs line 337). -/
def Matrix4.identity {P : Type} [LinearOrderedField P] : Matrix4 P :=
  M4 1 0 0 0 0 1 0 0 0 0 1 0 0 0 0 1

/-- Matrix built inside inverse (matrix.rs lines 354-361): the entry at
[col][row] is cofactor(row, col) divided by the determinant, so the entry at
(i, j) is cofactor(j, i) / determinant. -/
def inverseMat {P : Type} [LinearOrderedField P] (self : Matrix4 P) : Matrix4 P :=
  ⟨fun i j => self.cofactor j i / self.determinant⟩

/-- Inverse (matrix.rs line 350): panics (modelled as none) exactly when the
determinant is zero, and otherwise returns the cofactor-transpose matrix. -/
def Matrix4.inverse {P : Type} [LinearOrderedField P] [DecidableEq P] (self : Matrix4 P) :
    Option (Matrix4 P) :=
  if self.determinant = 0 then none else some (inverseMat self)

/-- Application of a matrix to a point (matrix.rs line 554, Mul of Point3 for
Matrix4): each component is the dot product of the matching row with (x,y,z,w). -/
def Matrix4.mulPoint {P : Type} [LinearOrderedField P] (self : Matrix4 P) (rhs : Point3 P) :
    Point3 P :=
  { x := self.m 0 0 * rhs.x + self.m 0 1 * rhs.y + self.m 0 2 * rhs.z + self.m 0 3 * rhs.w
    y := self.m 1 0 * rhs.x + self.m 1 1 * rhs.y + self.m 1 2 * rhs.z + self.m 1 3 * rhs.w
    z := self.m 2 0 * rhs.x + self.m 2 1 * rhs.y + self.m 2 2 * rhs.z + self.m 2 3 * rhs.w
    w := self.m 3 0 * rhs.x + self.m 3 1 * rhs.y + self.m 3 2 * rhs.z + self.m 3 3 * rhs.w }

/-- Application of a matrix to a vector (matrix.rs line 513, Mul of Vector3 for
Matrix4): same row dot products as for points. -/
def Matrix4.mulVec {P : Type} [LinearOrderedField P] (self : Matrix4 P) (rhs : Vector3 P) :
    Vector3 P :=
  { x := self.m 0 0 * rhs.x + self.m 0 1 * rhs.y + self.m 0 2 * rhs.z + self.m 0 3 * rhs.w
    y := self.m 1 0 * rhs.x + self.m 1 1 * rhs.y + self.m 1 2 * rhs.z + self.m 1 3 * rhs.w
    z := self.m 2 0 * rhs.x + self.m 2 1 * rhs.y + self.m 2 2 * rhs.z + self.m 2 3 * rhs.w
    w := self.m 3 0 * rhs.x + self.m 3 1 * rhs.y + self.m 3 2 * rhs.z + self.m 3 3 * rhs.w }

/-- Elementary translation matrix (matrix.rs lines 449-452): identity with the
last column replaced by (x, y, z, 1). -/
def translateM {P : Type} [LinearOrderedField P] (x y z : P) : Matrix4 P :=
  M4 1 0 0 x 0 1 0 y 0 0 1 z 0 0 0 1

/-- Elementary scaling matrix (matrix.rs lines 416-419): identity with the
diagonal replaced by (x, y, z, 1). -/
def scaleM {P : Type} [LinearOrderedField P] (x y z : P) : Matrix4 P :=
  M4 x 0 0 0 0 y 0 0 0 0 z 0 0 0 0 1

/-- Elementary rotation matrix about the X axis (matrix.rs lines 380-386):
identity with the middle 2x2 block replaced by cos, -sin, sin, cos. -/
noncomputable def rotXM (radians : ℝ) : Matrix4 ℝ :=
  M4 1 0 0 0 0 (Real.cos radians) (-Real.sin radians) 0
    0 (Real.sin radians) (Real.cos radians) 0 0 0 0 1

/-- Translate builder (matrix.rs line 448): replaces the receiver with the
elementary translation left-multiplied onto it. -/
def Matrix4.translate {P : Type} [LinearOrderedField P] (self : Matrix4 P) (x y z : P) :
    Matrix4 P :=
  (translateM x y z).mul self

/-- Scale builder (matrix.rs line 415): replaces the receiver with the
elementary scaling left-multiplied onto it. -/
def Matrix4.scale {P : Type} [LinearOrderedField P] (self : Matrix4 P) (x y z : P) : Matrix4 P :=
  (scaleM x y z).mul self

/-- Rotate-about-X builder (matrix.rs line 379): replaces the receiver with the
elementary rotation left-multiplied onto it. -/
noncomputable def Matrix4.rotate_x (self : Matrix4 ℝ) (radians : ℝ) : Matrix4 ℝ :=
  (rotXM radians).mul self

/-- Pure transpose built inside the transpose builder (matrix.rs lines 437-443):
the entry at (i, j) is the receiver entry at (j, i). -/
def transposeOf {P : Type} (self : Matrix4 P) : Matrix4 P :=
  ⟨fun i j => self.m j i⟩

/-- Transpose builder (matrix.rs line 436): builds the transpose and, like the
other builders, left-multiplies it onto the receiver. -/
def Matrix4.transpose {P : Type} [LinearOrderedField P] (self : Matrix4 P) : Matrix4 P :=
  (transposeOf self).mul self

/-- Ray (ray.rs line 28): an origin point and a direction vector. -/
structure Ray (P : Type) where
  origin : Point3 P
  direction : Vector3 P

/-- Transformation of a ray (ray.rs line 72): the matrix is applied to the
origin and the direction independently. -/
def Ray.transform {P : Type} [LinearOrderedField P] (ray : Ray P) (mat : Matrix4 P) : Ray P :=
  { origin := mat.mulPoint ray.origin, direction := mat.mulVec ray.direction }

/-- Sphere (sphere.rs line 34): id, name, origin, radius and a transform. -/
structure Sphere (P : Type) where
  id : ℤ
  name : String
  origin : Point3 P
  radius : P
  transform : Matrix4 P

/-- Sphere factory (sphere.rs line 96, Shape::new): name sphere, origin at the
world origin, radius 1, transform the identity. -/
def Sphere.new {P : Type} [LinearOrderedField P] (id : ℤ) : Sphere P :=
  { id := id, name := "sphere", origin := Point3.zero, radius := 1,
    transform := Matrix4.identity }

/-- Sphere-ray intersection (sphere.rs lines 62-94): the world ray is
transformed by the inverse of the shape transform (none models the panic of
inverse on a singular transform), the quadratic coefficients are computed on
the transformed ray, an empty sequence is returned when the discriminant is
negative and the two roots otherwise. -/
noncomputable def Sphere.intersect (shape : Sphere ℝ) (ray : Ray ℝ) :
    Option (List (Intxn ℝ (Sphere ℝ))) :=
  match shape.transform.inverse with
  | none => none
  | some inv =>
    let r := Ray.transform ray inv
    let sphere_to_ray := Point3.sub r.origin Point3.zero
    let a := Vector3.dot r.direction r.direction
    let b := 2 * Vector3.dot r.direction sphere_to_ray
    let c := Vector3.dot sphere_to_ray sphere_to_ray - 1
    let discriminant := b * b - 4 * a * c
    if discriminant < 0 then some []
    else
      some [⟨(-b - Real.sqrt discriminant) / (2 * a), shape⟩,
        ⟨(-b + Real.sqrt discriminant) / (2 * a), shape⟩]

/-- Object-space ray of the C2 specification sentence: the world ray
transformed by the inverse of the shape transform. -/
noncomputable def specRay (s : Sphere ℝ) (ray : Ray ℝ) : Ray ℝ :=
  Ray.transform ray (inverseMat s.transform)

/-- Quadratic coefficient a of the C2 specification sentence: dot(d, d) on the
transformed ray. -/
noncomputable def specA (s : Sphere ℝ) (ray : Ray ℝ) : ℝ :=
  Vector3.dot (specRay s ray).direction (specRay s ray).direction

/-- Quadratic coefficient b of the C2 specification sentence:
2 * dot(d, sphere_to_ray). -/
noncomputable def specB (s : Sphere ℝ) (ray : Ray ℝ) : ℝ :=
  2 * Vector3.dot (specRay s ray).direction (Point3.sub (specRay s ray).origin Point3.zero)

/-- Quadratic coefficient c of the C2 specification sentence:
dot(sphere_to_ray, sphere_to_ray) - 1. -/
noncomputable def specC (s : Sphere ℝ) (ray : Ray ℝ) : ℝ :=
  Vector3.dot (Point3.sub (specRay s ray).origin Point3.zero)
    (Point3.sub (specRay s ray).origin Point3.zero) - 1

/-- Discriminant b*b - 4*a*c of the C2 specification sentence. -/
noncomputable def specDisc (s : Sphere ℝ) (ray : Ray ℝ) : ℝ :=
  specB s ray * specB s ray - 4 * specA s ray * specC s ray

/-- Root t1 = (-b - sqrt(disc)) / (2*a) of the C2 specification sentence. -/
noncomputable def specT1 (s : Sphere ℝ) (ray : Ray ℝ) : ℝ :=
  (-specB s ray - Real.sqrt (specDisc s ray)) / (2 * specA s ray)

/-- Root t2 = (-b + sqrt(disc)) / (2*a) of the C2 specification sentence. -/
noncomputable def specT2 (s : Sphere ℝ) (ray : Ray ℝ) : ℝ :=
  (-specB s ray + Real.sqrt (specDisc s ray)) / (2 * specA s ray)

/-- Mathlib view of a Matrix4, used to compare the Laplace-expansion
determinant with the mathematical determinant. -/
def toMatrix {P : Type} (A : Matrix4 P) : Matrix (Fin 4) (Fin 4) P :=
  Matrix.of A.m

/-- Value of the Fin 4 literal 2. -/
theorem finval_two4 : ((2 : Fin 4) : ℕ) = 2 := rfl

/-- Value of the Fin 4 literal 3. -/
theorem finval_three4 : ((3 : Fin 4) : ℕ) = 3 := rfl

/-- Value of the Fin 3 literal 2. -/
theorem finval_two3 : ((2 : Fin 3) : ℕ) = 2 := rfl

/-- Normalisation of a Fin 4 mk-literal. -/
theorem fin_mk_zero4 (h : (0 : ℕ) < 4) : (⟨0, h⟩ : Fin 4) = 0 := rfl

/-- Normalisation of a Fin 4 mk-literal. -/
theorem fin_mk_one4 (h : (1 : ℕ) < 4) : (⟨1, h⟩ : Fin 4) = 1 := rfl

/-- Normalisation of a Fin 4 mk-literal. -/
theorem fin_mk_two4 (h : (2 : ℕ) < 4) : (⟨2, h⟩ : Fin 4) = 2 := rfl

/-- Normalisation of a Fin 4 mk-literal. -/
theorem fin_mk_three4 (h : (3 : ℕ) < 4) : (⟨3, h⟩ : Fin 4) = 3 := rfl

/-- Matrices are equal when all entries agree. -/
theorem Matrix4.entry_ext {P : Type} (A B : Matrix4 P) (h : ∀ i j, A.m i j = B.m i j) :
    A = B := by
  cases A; cases B
  congr 1
  funext i j
  exact h i j

/-- Entries of the identity matrix. -/
theorem identity_apply {P : Type} [LinearOrderedField P] (i j : Fin 4) :
    (Matrix4.identity : Matrix4 P).m i j = if i = j then 1 else 0 := by
  fin_cases i <;> fin_cases j <;> simp [Matrix4.identity, M4]

/-- Cofactor expansion of any row against any row of cofactors: the expansion
along the same row gives the determinant, an alien expansion gives zero. -/
theorem rowCofactor {P : Type} [LinearOrderedField P] (A : Matrix4 P) (i j : Fin 4) :
    A.m i 0 * A.cofactor j 0 + A.m i 1 * A.cofactor j 1 +
      A.m i 2 * A.cofactor j 2 + A.m i 3 * A.cofactor j 3 =
      if i = j then A.determinant else 0 := by
  fin_cases i <;> fin_cases j <;>
    simp [Matrix4.determinant, Matrix4.cofactor, Matrix4.minor, Matrix4.submatrix,
      Matrix3.determinant, Matrix3.cofactor, Matrix3.minor, Matrix3.submatrix,
      Matrix2.determinant, skipFin4, skipFin3, finval_two4, finval_three4, finval_two3,
      fin_mk_zero4, fin_mk_one4, fin_mk_two4, fin_mk_three4] <;>
    ring

/-- Core algebraic fact behind C4: when the determinant is nonzero, the
cofactor-transpose matrix built by inverse is a right inverse. -/
theorem mul_inverseMat_eq_identity {P : Type} [LinearOrderedField P] (A : Matrix4 P)
    (h : A.determinant ≠ 0) : A.mul (inverseMat A) = Matrix4.identity := by
  apply Matrix4.entry_ext
  intro i j
  have step : (A.mul (inverseMat A)).m i j =
      (A.m i 0 * A.cofactor j 0 + A.m i 1 * A.cofactor j 1 +
        A.m i 2 * A.cofactor j 2 + A.m i 3 * A.cofactor j 3) / A.determinant := by
    simp only [Matrix4.mul, inverseMat]
    ring
  rw [step, rowCofactor, identity_apply]
  by_cases hij : i = j
  · simp [hij, div_self h]
  · simp [hij]

/-- Multiplication of 4x4 matrices is associative. -/
theorem mul4_assoc {P : Type} [LinearOrderedField P] (A B C : Matrix4 P) :
    (A.mul B).mul C = A.mul (B.mul C) := by
  apply Matrix4.entry_ext
  intro i j
  simp only [Matrix4.mul]
  ring

/-- The identity matrix is a right unit for the matrix product. -/
theorem mul4_identity_right {P : Type} [LinearOrderedField P] (A : Matrix4 P) :
    A.mul Matrix4.identity = A := by
  apply Matrix4.entry_ext
  intro i j
  simp only [Matrix4.mul, identity_apply]
  fin_cases j <;> simp

/-- Determinant of the identity matrix. -/
theorem det_identity {P : Type} [LinearOrderedField P] :
    (Matrix4.identity : Matrix4 P).determinant = 1 := by
  simp [Matrix4.determinant, Matrix4.cofactor, Matrix4.minor, Matrix4.submatrix,
    Matrix3.determinant, Matrix3.cofactor, Matrix3.minor, Matrix3.submatrix,
    Matrix2.determinant, skipFin4, skipFin3, Matrix4.identity, M4]

/-- Inverse on a matrix of nonzero determinant returns the cofactor-transpose
matrix. -/
theorem inverse_of_det_ne {P : Type} [LinearOrderedField P] [DecidableEq P] (A : Matrix4 P)
    (h : A.determinant ≠ 0) : A.inverse = some (inverseMat A) := by
  simp [Matrix4.inverse, h]

/-- Inverse of the identity matrix resolves to the cofactor-transpose matrix. -/
theorem inverse_identity : (Matrix4.identity : Matrix4 ℝ).inverse =
    some (inverseMat Matrix4.identity) := by
  apply inverse_of_det_ne
  rw [det_identity]
  norm_num

/-- Applying the identity matrix to a point is the identity map. -/
theorem identity_mulPoint {P : Type} [LinearOrderedField P] (p : Point3 P) :
    (Matrix4.identity : Matrix4 P).mulPoint p = p := by
  cases p
  simp [Matrix4.mulPoint, Matrix4.identity, M4]

/-- Applying the identity matrix to a vector is the identity map. -/
theorem identity_mulVec {P : Type} [LinearOrderedField P] (v : Vector3 P) :
    (Matrix4.identity : Matrix4 P).mulVec v = v := by
  cases v
  simp [Matrix4.mulVec, Matrix4.identity, M4]

/-- Epsilon equality of points is reflexive. -/
theorem point_equal_self {P : Type} [LinearOrderedField P] (p : Point3 P) : p.equal p := by
  simp [Point3.equal, EPSILON]

/-- Epsilon equality of vectors is reflexive. -/
theorem vector_equal_self {P : Type} [LinearOrderedField P] (v : Vector3 P) : v.equal v := by
  simp [Vector3.equal, EPSILON]

/-- Determinant of a sphere given by the factory is the determinant of the
identity transform. -/
theorem sphere_new_det : (Sphere.new 1 : Sphere ℝ).transform.determinant ≠ 0 := by
  rw [show (Sphere.new 1 : Sphere ℝ).transform = Matrix4.identity from rfl, det_identity]
  norm_num

/-- C3: Matrix4::inverse fails fatally (none models the panic) exactly when the
determinant is zero, under exact equality and not the epsilon rule; for every
matrix with nonzero determinant it returns the cofactor-transpose matrix
normally. -/
theorem inverse_panicks_iff_det_zero (M : Matrix4 ℝ) :
    (M.inverse = none ↔ M.determinant = 0) ∧
      (M.determinant ≠ 0 → M.inverse = some (inverseMat M)) := by
  constructor
  · by_cases h : M.determinant = 0 <;> simp [Matrix4.inverse, h]
  · intro h
    exact inverse_of_det_ne M h

/-- Witness for C3 at the identity matrix: its determinant is nonzero and its
inverse returns normally. -/
theorem inverse_panicks_iff_det_zero_witness :
    (Matrix4.identity : Matrix4 ℝ).determinant ≠ 0 ∧
      (Matrix4.identity : Matrix4 ℝ).inverse = some (inverseMat Matrix4.identity) :=
  ⟨by rw [det_identity]; norm_num,
    (inverse_panicks_iff_det_zero Matrix4.identity).2 (by rw [det_identity]; norm_num)⟩

/-- C4: for every matrix whose inverse returns a matrix R (equivalently, whose
determinant is nonzero) and every point and vector, applying M * R gives the
point and the vector back, up to the componentwise epsilon equality. -/
theorem inverse_roundtrip_epsilon (M R : Matrix4 ℝ) (hinv : M.inverse = some R)
    (p : Point3 ℝ) (v : Vector3 ℝ) :
    Point3.equal ((M.mul R).mulPoint p) p ∧ Vector3.equal ((M.mul R).mulVec v) v := by
  have hdet : M.determinant ≠ 0 := by
    intro h
    simp [Matrix4.inverse, h] at hinv
  have hR : R = inverseMat M := by
    rw [inverse_of_det_ne M hdet] at hinv
    exact (Option.some.inj hinv).symm
  subst hR
  rw [mul_inverseMat_eq_identity M hdet, identity_mulPoint, identity_mulVec]
  exact ⟨point_equal_self p, vector_equal_self v⟩

/-- Witness for C4 at the identity matrix and concrete point and vector. -/
theorem inverse_roundtrip_epsilon_witness :
    (Matrix4.identity : Matrix4 ℝ).inverse = some (inverseMat Matrix4.identity) ∧
      (Point3.equal
          ((Matrix4.identity.mul (inverseMat Matrix4.identity)).mulPoint
            (⟨1, 2, 3, 1⟩ : Point3 ℝ)) ⟨1, 2, 3, 1⟩ ∧
        Vector3.equal
          ((Matrix4.identity.mul (inverseMat Matrix4.identity)).mulVec
            (⟨4, 5, 6, 0⟩ : Vector3 ℝ)) ⟨4, 5, 6, 0⟩) :=
  ⟨inverse_identity, inverse_roundtrip_epsilon _ _ inverse_identity _ _⟩

/-- C5: each transform builder replaces the receiver with the elementary
transform left-multiplied onto the old value, so chaining rotate_x, scale and
translate starting from the identity leaves the matrix equal to the product
Translate * Scale * RotateX. -/
theorem builders_compose (a sx sy sz tx ty tz : ℝ) :
    (∀ m : Matrix4 ℝ,
        m.rotate_x a = (rotXM a).mul m ∧
          m.scale sx sy sz = (scaleM sx sy sz).mul m ∧
          m.translate tx ty tz = (translateM tx ty tz).mul m) ∧
      ((Matrix4.identity.rotate_x a).scale sx sy sz).translate tx ty tz =
        ((translateM tx ty tz).mul (scaleM sx sy sz)).mul (rotXM a) := by
  refine ⟨fun m => ⟨rfl, rfl, rfl⟩, ?_⟩
  show (translateM tx ty tz).mul ((scaleM sx sy sz).mul ((rotXM a).mul Matrix4.identity)) =
    ((translateM tx ty tz).mul (scaleM sx sy sz)).mul (rotXM a)
  rw [mul4_identity_right, mul4_assoc]

/-- C6: the transpose builder does not replace the receiver with the pure
transpose: it left-multiplies the transpose onto the receiver, giving
transpose(M) * M, and there are matrices where this differs from the pure
transpose. -/
theorem transpose_left_multiplies (M : Matrix4 ℝ) :
    M.transpose = (transposeOf M).mul M ∧
      ∃ N : Matrix4 ℝ, N.transpose ≠ transposeOf N := by
  refine ⟨rfl, ⟨scaleM 2 1 1, fun h => ?_⟩⟩
  have h00 := congrArg (fun X => X.m 0 0) h
  simp [Matrix4.transpose, transposeOf, Matrix4.mul, scaleM, M4] at h00

/-- Successor of the Fin 3 literal 2 inside Fin 4. -/
theorem fin_succ_two3 : Fin.succ (2 : Fin 3) = (3 : Fin 4) := rfl

/-- Fin.succAbove agrees with the submatrix index map of the embedding. -/
theorem succAbove4_eval : ∀ (p : Fin 4) (i : Fin 3), p.succAbove i = skipFin4 p i := by decide

/-- C7: the determinant is the row-0 Laplace expansion over cofactors, with
cofactor the parity-signed minor, the minor the determinant of the submatrix,
the 2x2 base case m00*m11 - m01*m10, and this value equals the mathematical
determinant of the matrix. -/
theorem determinant_laplace_correct (A : Matrix4 ℝ) :
    (A.determinant = ∑ c : Fin 4, A.m 0 c * A.cofactor 0 c) ∧
      (∀ r c : Fin 4, A.cofactor r c = (-1 : ℝ) ^ ((r : ℕ) + (c : ℕ)) * A.minor r c) ∧
      (∀ r c : Fin 4, A.minor r c = (A.submatrix r c).determinant) ∧
      (∀ B : Matrix2 ℝ, B.determinant = B.m 0 0 * B.m 1 1 - B.m 0 1 * B.m 1 0) ∧
      A.determinant = (toMatrix A).det := by
  refine ⟨?_, ?_, fun r c => rfl, fun B => rfl, ?_⟩
  · rw [Fin.sum_univ_four]
    rfl
  · intro r c
    rcases Nat.even_or_odd ((r : ℕ) + (c : ℕ)) with he | ho
    · simp only [Matrix4.cofactor]
      rw [if_pos (Nat.even_iff.mp he), he.neg_one_pow, one_mul]
    · simp only [Matrix4.cofactor]
      rw [if_neg (by simp [Nat.odd_iff.mp ho]), ho.neg_one_pow, neg_one_mul]
  · rw [show (toMatrix A).det = _ from Matrix.det_succ_row_zero _]
    simp only [Matrix.det_succ_row_zero, ← Nat.not_even_iff_odd, Matrix.submatrix_apply,
      Fin.succ_zero_eq_one, Matrix.submatrix_submatrix, Matrix.det_unique, Fin.default_eq_zero,
      Function.comp_apply, Fin.succ_one_eq_two, Fin.sum_univ_succ, Fin.val_zero,
      Fin.zero_succAbove, Finset.univ_unique, Fin.val_succ, Fin.val_eq_zero,
      Fin.succ_succAbove_zero, Finset.sum_singleton, Fin.succ_succAbove_one,
      Fin.succ_succAbove_succ, even_add_self, fin_succ_two3, toMatrix, Matrix.of_apply,
      finval_two4, finval_three4, finval_two3, succAbove4_eval, skipFin4]
    simp only [Matrix4.determinant, Matrix4.cofactor, Matrix4.minor, Matrix4.submatrix,
      Matrix3.determinant, Matrix3.cofactor, Matrix3.minor, Matrix3.submatrix,
      Matrix2.determinant, skipFin4, skipFin3, finval_two4, finval_three4, finval_two3]
    norm_num
    ring

/-- C2: when the transform is invertible, the sphere intersection transforms
the ray by the inverse of the shape transform and computes the quadratic on
the transformed ray: negative discriminant gives the empty sequence, otherwise
exactly the two intersections t1 and t2 carrying the shape, and t1 is never
above t2, with equality on a tangent ray. -/
theorem sphere_intersect_quadratic (s : Sphere ℝ) (r : Ray ℝ)
    (hdet : s.transform.determinant ≠ 0) :
    (specDisc s r < 0 → s.intersect r = some []) ∧
      (0 ≤ specDisc s r →
        s.intersect r = some [⟨specT1 s r, s⟩, ⟨specT2 s r, s⟩]) ∧
      specT1 s r ≤ specT2 s r ∧
      (specDisc s r = 0 → specT1 s r = specT2 s r) := by
  have hinv : s.transform.inverse = some (inverseMat s.transform) := inverse_of_det_ne _ hdet
  have hunfold : s.intersect r =
      if specDisc s r < 0 then some []
      else some [⟨specT1 s r, s⟩, ⟨specT2 s r, s⟩] := by
    unfold Sphere.intersect
    rw [hinv]
    rfl
  have ha : (0 : ℝ) ≤ specA s r :=
    add_nonneg (add_nonneg (mul_self_nonneg _) (mul_self_nonneg _)) (mul_self_nonneg _)
  refine ⟨fun h => ?_, fun h => ?_, ?_, fun h => ?_⟩
  · rw [hunfold, if_pos h]
  · rw [hunfold, if_neg (not_lt.mpr h)]
  · rcases ha.lt_or_eq with hpos | h0
    · unfold specT1 specT2
      exact (div_le_div_right (by linarith)).mpr
        (by linarith [Real.sqrt_nonneg (specDisc s r)])
    · unfold specT1 specT2
      rw [← h0]
      norm_num
  · unfold specT1 specT2
    rw [h, Real.sqrt_zero]
    ring

/-- Witness for C2 at the unit sphere and the ray from (0,0,-5) along
(0,0,1). -/
theorem sphere_intersect_quadratic_witness :
    (Sphere.new 1 : Sphere ℝ).transform.determinant ≠ 0 ∧
      ((specDisc (Sphere.new 1) ⟨⟨0, 0, -5, 1⟩, ⟨0, 0, 1, 0⟩⟩ < 0 →
          (Sphere.new 1).intersect ⟨⟨0, 0, -5, 1⟩, ⟨0, 0, 1, 0⟩⟩ = some []) ∧
        (0 ≤ specDisc (Sphere.new 1) ⟨⟨0, 0, -5, 1⟩, ⟨0, 0, 1, 0⟩⟩ →
          (Sphere.new 1).intersect ⟨⟨0, 0, -5, 1⟩, ⟨0, 0, 1, 0⟩⟩ =
            some [⟨specT1 (Sphere.new 1) ⟨⟨0, 0, -5, 1⟩, ⟨0, 0, 1, 0⟩⟩, Sphere.new 1⟩,
              ⟨specT2 (Sphere.new 1) ⟨⟨0, 0, -5, 1⟩, ⟨0, 0, 1, 0⟩⟩, Sphere.new 1⟩]) ∧
        specT1 (Sphere.new 1) ⟨⟨0, 0, -5, 1⟩, ⟨0, 0, 1, 0⟩⟩ ≤
          specT2 (Sphere.new 1) ⟨⟨0, 0, -5, 1⟩, ⟨0, 0, 1, 0⟩⟩ ∧
        (specDisc (Sphere.new 1) ⟨⟨0, 0, -5, 1⟩, ⟨0, 0, 1, 0⟩⟩ = 0 →
          specT1 (Sphere.new 1) ⟨⟨0, 0, -5, 1⟩, ⟨0, 0, 1, 0⟩⟩ =
            specT2 (Sphere.new 1) ⟨⟨0, 0, -5, 1⟩, ⟨0, 0, 1, 0⟩⟩)) :=
  ⟨sphere_new_det, sphere_intersect_quadratic _ _ sphere_new_det⟩

/-- Evaluation of the scale builder on the identity receiver: the accumulated
matrix is the elementary scale matrix itself. -/
theorem scale_on_identity :
    (Matrix4.identity : Matrix4 ℚ).scale 2 3 4 = scaleM 2 3 4 :=
  mul4_identity_right _

/-- Determinant of the (2,3,4) scale matrix. -/
theorem scaleM_det : (scaleM (2 : ℚ) 3 4).determinant = 24 := by
  norm_num [Matrix4.determinant, Matrix4.cofactor, Matrix4.minor, Matrix4.submatrix,
    Matrix3.determinant, Matrix3.cofactor, Matrix3.minor, Matrix3.submatrix,
    Matrix2.determinant, skipFin4, skipFin3, scaleM, M4, finval_two4, finval_three4,
    finval_two3]

/-- Forward evaluation of the scaling scenario. -/
theorem scaleM_fwd : (scaleM (2 : ℚ) 3 4).mulPoint ⟨-4, 6, 8, 1⟩ = ⟨-8, 18, 32, 1⟩ := by
  norm_num [Matrix4.mulPoint, scaleM, M4]

/-- Inverse-scale evaluation on the scaled point. -/
theorem scaleM_inv_scaled :
    (inverseMat (scaleM (2 : ℚ) 3 4)).mulPoint ⟨-8, 18, 32, 1⟩ = ⟨-4, 6, 8, 1⟩ := by
  norm_num [Matrix4.mulPoint, inverseMat, Matrix4.determinant, Matrix4.cofactor,
    Matrix4.minor, Matrix4.submatrix, Matrix3.determinant, Matrix3.cofactor, Matrix3.minor,
    Matrix3.submatrix, Matrix2.determinant, skipFin4, skipFin3, scaleM, M4, finval_two4,
    finval_three4, finval_two3]

/-- Inverse-scale evaluation on the original point. -/
theorem scaleM_inv_original :
    (inverseMat (scaleM (2 : ℚ) 3 4)).mulPoint ⟨-4, 6, 8, 1⟩ = ⟨-2, 2, 2, 1⟩ := by
  norm_num [Matrix4.mulPoint, inverseMat, Matrix4.determinant, Matrix4.cofactor,
    Matrix4.minor, Matrix4.submatrix, Matrix3.determinant, Matrix3.cofactor, Matrix3.minor,
    Matrix3.submatrix, Matrix2.determinant, skipFin4, skipFin3, scaleM, M4, finval_two4,
    finval_three4, finval_two3]

/-- C9, counterexample to the claim as stated: starting from Point3 (-4,6,8),
scaling by (2,3,4) and then applying the inverse scale gives back (-4,6,8),
which is not epsilon-equal to the claimed (-2,2,2). -/
theorem scale_then_inverse_scale_not_two :
    ¬ Point3.equal
        ((inverseMat ((Matrix4.identity : Matrix4 ℚ).scale 2 3 4)).mulPoint
          (((Matrix4.identity : Matrix4 ℚ).scale 2 3 4).mulPoint ⟨-4, 6, 8, 1⟩))
        ⟨-2, 2, 2, 1⟩ := by
  rw [scale_on_identity, scaleM_fwd, scaleM_inv_scaled]
  intro h
  norm_num [Point3.equal, EPSILON] at h

/-- C9 amended: scaling Point3 (-4,6,8) by (2,3,4) yields (-8,18,32); the
inverse scale maps the scaled point back to (-4,6,8); applying the inverse
scale directly to the original (-4,6,8) yields (-2,2,2); and the inverse of the
scale matrix returns normally with the cofactor-transpose matrix. -/
theorem scale_scenario_amended :
    Point3.equal (((Matrix4.identity : Matrix4 ℚ).scale 2 3 4).mulPoint ⟨-4, 6, 8, 1⟩)
        ⟨-8, 18, 32, 1⟩ ∧
      Point3.equal
        ((inverseMat ((Matrix4.identity : Matrix4 ℚ).scale 2 3 4)).mulPoint ⟨-8, 18, 32, 1⟩)
        ⟨-4, 6, 8, 1⟩ ∧
      Point3.equal
        ((inverseMat ((Matrix4.identity : Matrix4 ℚ).scale 2 3 4)).mulPoint ⟨-4, 6, 8, 1⟩)
        ⟨-2, 2, 2, 1⟩ ∧
      ((Matrix4.identity : Matrix4 ℚ).scale 2 3 4).inverse =
        some (inverseMat ((Matrix4.identity : Matrix4 ℚ).scale 2 3 4)) := by
  rw [scale_on_identity, scaleM_fwd, scaleM_inv_scaled, scaleM_inv_original]
  refine ⟨point_equal_self _, point_equal_self _, point_equal_self _, ?_⟩
  apply inverse_of_det_ne
  rw [scaleM_det]
  norm_num

/-- C10: hit is not total on the empty sequence: called on an empty sequence of
intersections it indexes element 0 before any emptiness check and panics with
an out-of-bounds access instead of returning none. -/
theorem hit_empty_panicks : hit ([] : List (Intxn ℚ Unit)) = HitResult.panicked := rfl

/-- C1, evaluation at the failing input: on the sequence with t values [-3, 2]
the code returns the entry with t = -3, not the minimum nonnegative entry
t = 2 that the specification requires: min is seeded with xs[0].t = -3, which
is below every nonnegative t, so the remembered index never moves off 0. -/
theorem hit_first_negative_returned :
    hit [Intxn.mk (-3 : ℚ) (), Intxn.mk 2 ()] = HitResult.ok (some (Intxn.mk (-3) ())) := by
  decide

/-- C8, evaluation at the failing input: on the sequence with t values [NaN, 2]
the code returns the NaN entry: min is seeded with xs[0].t = NaN, every
comparison min > t is then false, and the remembered index never moves off 0,
so the returned intersection has a NaN t. -/
theorem hit_returns_nan :
    hit [Intxn.mk (none : FloatVal) (), Intxn.mk (some 2) ()] =
      HitResult.ok (some (Intxn.mk none ())) := by
  decide

end Ruxel
